import Mathlib

/-!
Shallow embedding of the voice-assistant conversation orchestrator
(`src/gui.py`, class `AssistantHUD`), the inference stage
(`src/llm_client.py`, class `LLMWorker`) and the synthesis/playback stage
(`src/audio_handler.py`, class `TTSWorker`).

The GUI is event driven: PyQt slots on `AssistantHUD` run on the control
thread when a worker signal or a `QTimer.singleShot` callback is delivered.
We model the observable state of the HUD as a record and each slot as a
state-transformer; a run is a fold of delivered events.  Worker `QThread`s
override `run()` and own no Qt event loop, so `quit()` in
`_stop_all_workers` does not stop them and `wait(2000)` returns after at
most two seconds with the thread still running; their signal connections
to the HUD slots are never disconnected, hence a late signal from a
superseded worker is still delivered to the same slots.  Events therefore
carry the numeric id of the emitting worker, and a validity predicate
checks that every delivered signal comes from a worker that was actually
started (with the payload bound at creation time for the `finished`
lambda of `_send_to_llm`) and that each worker emits at most one terminal
signal.  The slots themselves never inspect the sender, so the step
function ignores the id — exactly as in the source.

The `phase` field is the session-state abstraction of §4.1 of the design
document (Idle/Listening/Thinking/Speaking/ErrorCooldown); it is a ghost
field updated exactly where the code starts a stage or schedules an
error-cooldown resume, and is used only to state trace properties.
-/

namespace VoiceAssistant

/-- RGBA colour, as `QColor(r, g, b, a)` in `gui.py`. -/
structure Color where
  r : Nat
  g : Nat
  b : Nat
  a : Nat
deriving DecidableEq, Repr

/-- `ACCENT_COLOR = QColor(80, 160, 255)` (gui.py line 27). -/
def ACCENT_COLOR : Color := ⟨80, 160, 255, 255⟩

/-- `TEXT_COLOR = QColor(230, 230, 230)` (gui.py line 28). -/
def TEXT_COLOR : Color := ⟨230, 230, 230, 255⟩

/-- `ERROR_COLOR = QColor(255, 90, 90)` (gui.py line 29). -/
def ERROR_COLOR : Color := ⟨255, 90, 90, 255⟩

/-- `SUBTLE_COLOR = QColor(140, 140, 140)` (gui.py line 30). -/
def SUBTLE_COLOR : Color := ⟨140, 140, 140, 255⟩

/-- One conversation turn, the dict `{"role": ..., "content": ...}` kept in
`AssistantHUD._conversation`. -/
structure Turn where
  role : String
  content : String
deriving DecidableEq, Repr

/-- The session-state abstraction of §4.1 of the design document. -/
inductive SessionState
  | Idle
  | Listening
  | Thinking
  | Speaking
  | ErrorCooldown
deriving DecidableEq, Repr

/-- What a worker thread was created with: `STTWorker()` takes nothing,
`LLMWorker(user_text, conversation)` captures `user_text` (also bound into
the `finished` lambda in `_send_to_llm`), `TTSWorker(text)` captures the
text to speak. -/
inductive WorkerInfo
  | stt
  | llm (userText : String)
  | tts (text : String)
deriving DecidableEq, Repr

/-- Observable state of `AssistantHUD` plus the bookkeeping needed to model
signal delivery.  `started` records every worker ever constructed, in
construction order; a worker's id is its index.  `currentStt` / `currentLlm`
/ `currentTts` are the fields `_stt_worker` / `_llm_worker` / `_tts_worker`
(holding the id of the most recently assigned worker).  `pendingResumes`
counts `QTimer.singleShot(_, _resume_listening)` callbacks scheduled but
not yet fired.  `phase` is the ghost session state (§4.1). -/
structure HUDState where
  visible : Bool
  conversation : List Turn
  statusText : String
  statusColor : Color
  pulseActive : Bool
  responseText : String
  responseVisible : Bool
  started : List WorkerInfo
  currentStt : Option Nat
  currentLlm : Option Nat
  currentTts : Option Nat
  pendingResumes : Nat
  phase : SessionState
deriving DecidableEq, Repr

/-- State after `AssistantHUD.__init__`: empty conversation, the initial
status label text `"กดปุ่มพูดเพื่อเริ่มต้น"` in `SUBTLE_COLOR`, pulse hidden,
response label hidden and empty, no workers, window not shown. -/
def initState : HUDState :=
  { visible := false
    conversation := []
    statusText := "กดปุ่มพูดเพื่อเริ่มต้น"
    statusColor := SUBTLE_COLOR
    pulseActive := false
    responseText := ""
    responseVisible := false
    started := []
    currentStt := none
    currentLlm := none
    currentTts := none
    pendingResumes := 0
    phase := SessionState.Idle }

/-- `_set_collapsed`: hide and clear the response label (the geometry calls
have no modelled effect). -/
def setCollapsed (s : HUDState) : HUDState :=
  { s with responseVisible := false, responseText := "" }

/-- `_set_expanded(text)`: show the response label with the given text. -/
def setExpanded (text : String) (s : HUDState) : HUDState :=
  { s with responseText := text, responseVisible := true }

/-- `_set_status(msg, color)`. -/
def setStatus (msg : String) (color : Color) (s : HUDState) : HUDState :=
  { s with statusText := msg, statusColor := color }

/-- `_start_listening`: set the listening status, start the pulse, construct
a fresh `STTWorker`, connect its signals (connection is implicit: every
started worker's signals reach the slots) and start it.  Ghost phase:
a capture stage is now in flight. -/
def startListening (s : HUDState) : HUDState :=
  let s := setStatus "กำลังฟัง…" ACCENT_COLOR s
  let s := { s with pulseActive := true }
  { s with
      started := s.started ++ [WorkerInfo.stt]
      currentStt := some s.started.length
      phase := SessionState.Listening }

/-- `activate`: collapse, show the window (raise/centre have no modelled
effect) and start listening. -/
def activate (s : HUDState) : HUDState :=
  startListening { setCollapsed s with visible := true }

/-- `_stop_all_workers`: calls `quit()` and `wait(2000)` on each worker.
The workers override `run()` and run no Qt event loop, so `quit()` does not
stop them and `wait` merely blocks the caller for up to two seconds; no
signal is disconnected and no observable HUD state changes. -/
def stopAllWorkers (s : HUDState) : HUDState := s

/-- `deactivate`: stop workers (see `stopAllWorkers`) and hide the window.
Ghost phase: a hidden overlay is the Idle session state. -/
def deactivate (s : HUDState) : HUDState :=
  { stopAllWorkers s with visible := false, phase := SessionState.Idle }

/-- `toggle`: `deactivate` if visible else `activate`. -/
def toggle (s : HUDState) : HUDState :=
  if s.visible then deactivate s else activate s

/-- `_send_to_llm(user_text)`: set the thinking status and start a fresh
`LLMWorker(user_text, self._conversation)`.  Ghost phase: inference in
flight. -/
def sendToLlm (userText : String) (s : HUDState) : HUDState :=
  let s := setStatus "กำลังคิด…" ACCENT_COLOR s
  { s with
      started := s.started ++ [WorkerInfo.llm userText]
      currentLlm := some s.started.length
      phase := SessionState.Thinking }

/-- `_speak(text)`: start a fresh `TTSWorker(text)`.  Ghost phase:
synthesis/playback in flight. -/
def speak (text : String) (s : HUDState) : HUDState :=
  { s with
      started := s.started ++ [WorkerInfo.tts text]
      currentTts := some s.started.length
      phase := SessionState.Speaking }

/-- `QTimer.singleShot(delay, self._resume_listening)`: one more pending
resume callback.  The delay value (500/2000/3000 ms) does not affect the
modelled ordering. -/
def scheduleResume (s : HUDState) : HUDState :=
  { s with pendingResumes := s.pendingResumes + 1 }

/-- The history update in `_on_llm_reply` (gui.py lines 246-249): append the
user turn and the assistant turn, then `self._conversation[-40:]` when the
length exceeds 40. -/
def capAppend (conv : List Turn) (userText reply : String) : List Turn :=
  let conv := conv ++ [⟨"user", userText⟩, ⟨"assistant", reply⟩]
  if conv.length > 40 then conv.drop (conv.length - 40) else conv

/-- `_on_stt_result(text)`: stop the pulse, show the transcript in the
status label, hand the text to the inference stage. -/
def onSttResult (text : String) (s : HUDState) : HUDState :=
  let s := { s with pulseActive := false }
  let s := setStatus ("🗣 \"" ++ text ++ "\"") TEXT_COLOR s
  sendToLlm text s

/-- `_on_stt_error(msg)`: stop the pulse, show the error, schedule a resume
after 2000 ms.  Ghost phase: error cooldown. -/
def onSttError (msg : String) (s : HUDState) : HUDState :=
  let s := { s with pulseActive := false }
  let s := setStatus msg ERROR_COLOR s
  scheduleResume { s with phase := SessionState.ErrorCooldown }

/-- `_on_llm_reply(user_text, reply)`: append the turn pair with the cap,
show the answer status, expand the panel with the reply, speak it. -/
def onLlmReply (userText reply : String) (s : HUDState) : HUDState :=
  let s := { s with conversation := capAppend s.conversation userText reply }
  let s := setStatus "คำตอบ:" TEXT_COLOR s
  let s := setExpanded reply s
  speak reply s

/-- `_on_llm_error(msg)`: show the error, schedule a resume after 3000 ms.
Ghost phase: error cooldown. -/
def onLlmError (msg : String) (s : HUDState) : HUDState :=
  let s := setStatus msg ERROR_COLOR s
  scheduleResume { s with phase := SessionState.ErrorCooldown }

/-- `_on_tts_done`: schedule a resume after 500 ms.  Nothing else changes;
the phase stays Speaking until the deferred resume. -/
def onTtsDone (s : HUDState) : HUDState :=
  scheduleResume s

/-- `_on_tts_error(msg)`: `log.warning` only, then schedule a resume after
500 ms.  The status label is not touched. -/
def onTtsError (_msg : String) (s : HUDState) : HUDState :=
  scheduleResume s

/-- `_resume_listening`: a no-op when the window is hidden, otherwise
collapse and start listening again. -/
def resumeListening (s : HUDState) : HUDState :=
  if s.visible then startListening (setCollapsed s) else s

/-- `_on_listening_started`: update the status text. -/
def onListeningStarted (s : HUDState) : HUDState :=
  setStatus "กำลังฟัง… พูดได้เลย" ACCENT_COLOR s

/-- A worker signal as it reaches a slot: the slot arguments, with
`llmReply` carrying the `user_text` bound into the lambda
`lambda reply: self._on_llm_reply(user_text, reply)` at worker creation. -/
inductive Sig
  | listeningStarted
  | sttResult (text : String)
  | sttError (msg : String)
  | llmReply (userText reply : String)
  | llmError (msg : String)
  | ttsDone
  | ttsError (msg : String)
deriving DecidableEq, Repr

/-- Dispatch a delivered signal to its slot. -/
def handleSig : Sig → HUDState → HUDState
  | Sig.listeningStarted => onListeningStarted
  | Sig.sttResult text => onSttResult text
  | Sig.sttError msg => onSttError msg
  | Sig.llmReply u r => onLlmReply u r
  | Sig.llmError msg => onLlmError msg
  | Sig.ttsDone => onTtsDone
  | Sig.ttsError msg => onTtsError msg

/-- An event processed by the control thread: a public-API call, a worker
signal delivery (tagged with the emitting worker's id), or the firing of a
scheduled `_resume_listening` timer. -/
inductive Event
  | evActivate
  | evDeactivate
  | evToggle
  | sig (src : Nat) (g : Sig)
  | timerFired
deriving DecidableEq, Repr

/-- One step of the control thread.  The slots never inspect the signal's
sender, so the worker id of a `sig` event is ignored, exactly as in the
source. -/
def step : Event → HUDState → HUDState
  | Event.evActivate => activate
  | Event.evDeactivate => deactivate
  | Event.evToggle => toggle
  | Event.sig _ g => handleSig g
  | Event.timerFired => fun s =>
      resumeListening { s with pendingResumes := s.pendingResumes - 1 }

/-- Process a sequence of events. -/
def run (es : List Event) (s : HUDState) : HUDState :=
  es.foldl (fun s e => step e s) s

/-- The session states visited while processing `es` from `s` (including
the initial one). -/
def phaseTrace : List Event → HUDState → List SessionState
  | [], s => [s.phase]
  | e :: es, s => s.phase :: phaseTrace es (step e s)

/-- Collapse consecutive duplicates, to read a trace as the sequence of
distinct states visited. -/
def dedup : List SessionState → List SessionState
  | [] => []
  | [x] => [x]
  | x :: y :: t => if x = y then dedup (y :: t) else x :: dedup (y :: t)

/-- Does this signal end its worker's life (each stage yields at most one
terminal outcome per invocation)? -/
def terminalSig : Sig → Bool
  | Sig.listeningStarted => false
  | _ => true

/-- Can worker `w`, as recorded in `started`, emit signal `g`?  The payload
of `llmReply` must be the `user_text` captured at construction; the reply
itself comes from the network and is unconstrained.  `done` lists workers
that already emitted their terminal signal. -/
def sigOk (started : List WorkerInfo) (done : List Nat) (w : Nat) : Sig → Bool
  | Sig.listeningStarted => started.getD w (WorkerInfo.llm "") == WorkerInfo.stt
      && decide (w < started.length)
  | Sig.sttResult _ => started.getD w (WorkerInfo.llm "") == WorkerInfo.stt
      && decide (w < started.length) && !(done.contains w)
  | Sig.sttError _ => started.getD w (WorkerInfo.llm "") == WorkerInfo.stt
      && decide (w < started.length) && !(done.contains w)
  | Sig.llmReply u _ => started.getD w WorkerInfo.stt == WorkerInfo.llm u
      && !(done.contains w)
  | Sig.llmError _ =>
      (match started.getD w WorkerInfo.stt with
        | WorkerInfo.llm _ => true
        | _ => false) && !(done.contains w)
  | Sig.ttsDone =>
      (match started.getD w WorkerInfo.stt with
        | WorkerInfo.tts _ => true
        | _ => false) && !(done.contains w)
  | Sig.ttsError _ =>
      (match started.getD w WorkerInfo.stt with
        | WorkerInfo.tts _ => true
        | _ => false) && !(done.contains w)

/-- Validity of an event sequence from state `s`: public-API calls may
happen at any time; a timer can only fire if one is pending; a signal must
come from a started worker that has not yet emitted its terminal signal.
Late delivery of a stale worker's signal after `deactivate` or a fresh
`activate` is valid — the threads keep running and stay connected. -/
def validFrom (s : HUDState) (done : List Nat) : List Event → Bool
  | [] => true
  | Event.timerFired :: es =>
      (s.pendingResumes != 0) && validFrom (step Event.timerFired s) done es
  | Event.sig w g :: es =>
      sigOk s.started done w g
        && validFrom (step (Event.sig w g) s)
            (if terminalSig g then w :: done else done) es
  | e :: es => validFrom (step e s) done es

/-- Validity of a whole run from the freshly constructed HUD. -/
def validRun (es : List Event) : Bool :=
  validFrom initState [] es

/-! ### Inference stage, `src/llm_client.py`

Python lists are heap objects passed by reference, and the point of the
frame claim is that `LLMWorker.run` builds its request by copying
(`messages = list(self.conversation)`) and appends only to the copy.  We
model the heap of list objects explicitly: a cell per list object, a
reference is a cell index (a `Nat`). -/

/-- A heap of Python list-of-turn objects; a reference is a cell index. -/
structure PyHeap where
  cells : List (List Turn)
deriving DecidableEq, Repr

/-- Read the list object behind a reference. -/
def PyHeap.read (h : PyHeap) (r : Nat) : List Turn :=
  h.cells.getD r []

/-- `list(x)`: allocate a fresh list object with the given contents. -/
def PyHeap.alloc (h : PyHeap) (v : List Turn) : PyHeap × Nat :=
  ({ cells := h.cells ++ [v] }, h.cells.length)

/-- `x.append(t)`: mutate the list object behind `r` in place. -/
def PyHeap.appendAt (h : PyHeap) (r : Nat) (t : Turn) : PyHeap :=
  { cells := h.cells.set r (h.read r ++ [t]) }

/-- `str.strip()`: remove leading and trailing whitespace. -/
def pyStrip (s : String) : String :=
  ⟨((s.data.dropWhile Char.isWhitespace).reverse.dropWhile
      Char.isWhitespace).reverse⟩

/-- The `LLMWorker` object: `self.user_text` and the reference held in
`self.conversation`. -/
structure LLMWorker where
  user_text : String
  conversation : Nat
deriving DecidableEq, Repr

/-- `LLMWorker.__init__(user_text, conversation)`: stores the text and the
reference.  `self.conversation = conversation or []` replaces a `None`
argument — and also an empty list, which is falsy — by a fresh empty
list. -/
def LLMWorker.init (h : PyHeap) (userText : String) (conv : Option Nat) :
    PyHeap × LLMWorker :=
  match conv with
  | none =>
      let (h, r) := h.alloc []
      (h, ⟨userText, r⟩)
  | some r =>
      if (h.read r).isEmpty then
        let (h, r2) := h.alloc []
        (h, ⟨userText, r2⟩)
      else (h, ⟨userText, r⟩)

/-- Outcome of the `requests.post` call as `run` observes it: a parsed
reply string, or one of the exception classes the `try` distinguishes. -/
inductive HttpOutcome
  | ok (content : String)
  | connError
  | timeout
  | exc (e : String)
deriving DecidableEq, Repr

/-- The signal `LLMWorker` emits at the end of `run`. -/
inductive LLMEmit
  | finished (reply : String)
  | error (msg : String)
deriving DecidableEq, Repr

/-- Result of `LLMWorker.run`: the heap after the call, the `messages`
list sent in the request payload, and the emitted signal. -/
structure LLMRunResult where
  heap : PyHeap
  messages : List Turn
  emit : LLMEmit
deriving DecidableEq, Repr

/-- `LLMWorker.run`: copy the conversation (`messages = list(...)`),
append the new user turn to the copy, post the payload; on success emit
`finished(reply.strip())`, on each exception class emit the corresponding
error message. -/
def LLMWorker.run (w : LLMWorker) (h : PyHeap) (resp : HttpOutcome) :
    LLMRunResult :=
  let (h1, mref) := h.alloc (h.read w.conversation)
  let h2 := h1.appendAt mref ⟨"user", w.user_text⟩
  let msgs := h2.read mref
  match resp with
  | HttpOutcome.ok content => ⟨h2, msgs, LLMEmit.finished (pyStrip content)⟩
  | HttpOutcome.connError =>
      ⟨h2, msgs, LLMEmit.error
        "ไม่สามารถเชื่อมต่อ OpenClaw ได้ — ตรวจสอบว่าเซิร์ฟเวอร์ทำงานอยู่"⟩
  | HttpOutcome.timeout =>
      ⟨h2, msgs, LLMEmit.error "OpenClaw ไม่ตอบสนองภายในเวลาที่กำหนด"⟩
  | HttpOutcome.exc e => ⟨h2, msgs, LLMEmit.error ("LLM Error: " ++ e)⟩

/-! ### Synthesis & playback stage, `src/audio_handler.py`

`TTSWorker._synthesize_and_play` creates a named temporary file with
`delete=False`, then in a `try` body saves the synthesized audio to it and
plays it with `afplay` (`check=True`); the `finally` clause unlinks the
file if it exists.  We model the file system as the list of existing
paths and the fallible body by its outcome. -/

/-- File system: the set of existing paths, as a list. -/
structure FS where
  files : List String
deriving DecidableEq, Repr

/-- `os.path.exists`. -/
def FS.pathExists (fs : FS) (p : String) : Bool :=
  decide (p ∈ fs.files)

/-- `tempfile.NamedTemporaryFile(suffix=".mp3", delete=False)` followed by
`close()`: the file now exists. -/
def FS.create (fs : FS) (p : String) : FS :=
  { files := fs.files ++ [p] }

/-- `os.unlink`. -/
def FS.unlink (fs : FS) (p : String) : FS :=
  { files := fs.files.filter (fun q => q ≠ p) }

/-- How the `try` body of `_synthesize_and_play` ends: the synthesis
`communicate.save` raises, the `afplay` subprocess fails (`check=True`
raises `CalledProcessError`), or both succeed. -/
inductive TTSOutcome
  | saveFail (e : String)
  | playFail (e : String)
  | allOk
deriving DecidableEq, Repr

/-- `_synthesize_and_play`, given the fresh temp path the `tempfile` module
chose and the body's outcome: create the file; run the body; in `finally`,
unlink the file if it exists.  Returns the file system and the exception
propagated to `run`, if any. -/
def synthesizeAndPlay (fs : FS) (tmpPath : String) (outcome : TTSOutcome) :
    FS × Option String :=
  let fs1 := fs.create tmpPath
  let raised : Option String :=
    match outcome with
    | TTSOutcome.saveFail e => some e
    | TTSOutcome.playFail e => some e
    | TTSOutcome.allOk => none
  let fs2 := if fs1.pathExists tmpPath then fs1.unlink tmpPath else fs1
  (fs2, raised)

/-- The signal `TTSWorker` emits at the end of `run`. -/
inductive TTSEmit
  | finished
  | error (msg : String)
deriving DecidableEq, Repr

/-- `TTSWorker.run`: run `_synthesize_and_play`; emit `finished` when it
returns, `error("TTS Error: " + exc)` when it raises. -/
def TTSWorker.run (fs : FS) (tmpPath : String) (outcome : TTSOutcome) :
    FS × TTSEmit :=
  match synthesizeAndPlay fs tmpPath outcome with
  | (fs2, none) => (fs2, TTSEmit.finished)
  | (fs2, some e) => (fs2, TTSEmit.error ("TTS Error: " ++ e))

/-! ### Derived notions used to state the claims -/

/-- `_send_to_llm` followed by `LLMWorker.run`: construct the worker on the
caller's conversation list and run it. -/
def llmInvoke (h : PyHeap) (userText : String) (convRef : Nat)
    (resp : HttpOutcome) : LLMRunResult :=
  let (h1, w) := LLMWorker.init h userText (some convRef)
  w.run h1 resp

/-- The conversation after a sequence of successful inference rounds with
the given (recognised text, reply) payloads, folding the history update of
`_on_llm_reply` from the empty history. -/
def historyAfter (rounds : List (String × String)) : List Turn :=
  rounds.foldl (fun conv p => capAppend conv p.1 p.2) []

/-- The uncapped chronological history of the same rounds: one user turn
and one assistant turn per round. -/
def fullHistory (rounds : List (String × String)) : List Turn :=
  rounds.foldl (fun acc p => acc ++ [⟨"user", p.1⟩, ⟨"assistant", p.2⟩]) []

/-- The events of one fully successful round when the capture worker in
flight has id `w`: its recognition result (which starts LLM worker `w+1`),
the inference success (which starts TTS worker `w+2`), the playback
completion and the deferred resume (which starts capture worker `w+3`). -/
def roundEvents (w : Nat) (p : String × String) : List Event :=
  [Event.sig w (Sig.sttResult p.1),
   Event.sig (w + 1) (Sig.llmReply p.1 p.2),
   Event.sig (w + 2) Sig.ttsDone,
   Event.timerFired]

/-- The events of consecutive successful rounds, threading worker ids. -/
def roundsEvents : Nat → List (String × String) → List Event
  | _, [] => []
  | w, p :: ps => roundEvents w p ++ roundsEvents (w + 3) ps

/-- The pairing shape of a conversation: empty, or a user turn, an
assistant turn, and a paired tail. -/
inductive Paired : List Turn → Prop
  | nil : Paired []
  | cons (u a : Turn) (t : List Turn) :
      u.role = "user" → a.role = "assistant" → Paired t → Paired (u :: a :: t)

/-- The clean-run events of the self-driving-loop scenario: `activate()`
(starts capture worker 0), capture success "hello" (starts inference
worker 1), inference success "hi there" (starts synthesis worker 2),
synthesis success, and the deferred resume timer. -/
def evCleanRun : List Event :=
  [Event.evActivate,
   Event.sig 0 (Sig.sttResult "hello"),
   Event.sig 1 (Sig.llmReply "hello" "hi there"),
   Event.sig 2 Sig.ttsDone,
   Event.timerFired]

/-- Prefix of `evCleanRun` reaching the Speaking state with the reply
panel expanded. -/
def evToSpeaking : List Event :=
  [Event.evActivate,
   Event.sig 0 (Sig.sttResult "hello"),
   Event.sig 1 (Sig.llmReply "hello" "hi there")]

/-- Events reaching the moment `deactivate()` is called while inference
worker 1 is in flight. -/
def evDeactivateMidInference : List Event :=
  [Event.evActivate,
   Event.sig 0 (Sig.sttResult "hello"),
   Event.evDeactivate]

/-- Events of session G1 (capture worker 0, inference worker 1 left in
flight), `deactivate()`, then `activate()` opening session G2 (capture
worker 2). -/
def evTwoSessions : List Event :=
  [Event.evActivate,
   Event.sig 0 (Sig.sttResult "hello"),
   Event.evDeactivate,
   Event.evActivate]

/-! ### Theorems -/

/-- Processing a concatenation of event lists is sequential composition. -/
theorem run_append (es fs : List Event) (s : HUDState) :
    run (es ++ fs) s = run fs (run es s) :=
  List.foldl_append _ _ es fs

/-- The history update of `_on_llm_reply` always keeps the last 40 turns of
the appended history (when at most 40 turns are present that is all of
them). -/
theorem capAppend_eq_rtake (conv : List Turn) (u r : String) :
    capAppend conv u r =
      (conv ++ ([⟨"user", u⟩, ⟨"assistant", r⟩] : List Turn)).rtake 40 := by
  simp only [capAppend, List.rtake]
  split
  · rfl
  · next h =>
    rw [Nat.sub_eq_zero_of_le (by omega), List.drop_zero]

/-- Taking `n` from `a ++ b` ignores anything of `b` beyond its first `n`
elements. -/
theorem take_append_take {α : Type u} (n : Nat) (a b : List α) :
    (a ++ b.take n).take n = (a ++ b).take n := by
  rw [List.take_append_eq_append_take, List.take_append_eq_append_take,
    List.take_take, min_eq_left (Nat.sub_le n a.length)]

/-- Keeping the last `n` elements commutes with first capping the left
part at its last `n` elements. -/
theorem rtake_append_rtake {α : Type u} (n : Nat) (l m : List α) :
    (l.rtake n ++ m).rtake n = (l ++ m).rtake n := by
  simp only [List.rtake_eq_reverse_take_reverse, List.reverse_append,
    List.reverse_reverse]
  rw [take_append_take]

/-- Folding the capped history update from a capped start equals capping
the uncapped chronological fold. -/
theorem foldl_capAppend_rtake (rounds : List (String × String)) :
    ∀ acc : List Turn,
      rounds.foldl (fun conv p => capAppend conv p.1 p.2) (acc.rtake 40) =
        (rounds.foldl
          (fun a p => a ++ [⟨"user", p.1⟩, ⟨"assistant", p.2⟩]) acc).rtake 40 := by
  induction rounds with
  | nil => intro acc; rfl
  | cons p ps ih =>
      intro acc
      simp only [List.foldl_cons]
      rw [capAppend_eq_rtake, rtake_append_rtake]
      exact ih _

/-- The capped history of a sequence of rounds is the last 40 turns of the
uncapped chronological history. -/
theorem historyAfter_eq_rtake (rounds : List (String × String)) :
    historyAfter rounds = (fullHistory rounds).rtake 40 := by
  have h := foldl_capAppend_rtake rounds []
  simpa [historyAfter, fullHistory] using h

/-- Length of the uncapped chronological history. -/
theorem fullHistory_length (rounds : List (String × String)) :
    (fullHistory rounds).length = 2 * rounds.length := by
  suffices h : ∀ acc : List Turn,
      (rounds.foldl
        (fun a p => a ++ [⟨"user", p.1⟩, ⟨"assistant", p.2⟩]) acc).length =
        acc.length + 2 * rounds.length by
    simpa [fullHistory] using h []
  induction rounds with
  | nil => intro acc; simp
  | cons p ps ih =>
      intro acc
      simp only [List.foldl_cons]
      rw [ih]
      simp [List.length_append]
      omega

/-- Length of the last-`n` capping. -/
theorem length_rtake {α : Type u} (l : List α) (n : Nat) :
    (l.rtake n).length = min l.length n := by
  simp only [List.rtake, List.length_drop]
  omega

/-- Running the events of one successful round applies exactly one capped
history update and keeps the overlay visible. -/
theorem run_roundEvents (w : Nat) (p : String × String) (s : HUDState)
    (h : s.visible = true) :
    (run (roundEvents w p) s).conversation =
      capAppend s.conversation p.1 p.2 ∧
    (run (roundEvents w p) s).visible = true := by
  simp [run, roundEvents, step, handleSig, onSttResult, sendToLlm, onLlmReply,
    speak, setExpanded, setStatus, onTtsDone, scheduleResume, resumeListening,
    setCollapsed, startListening, h]

/-- Running the events of consecutive successful rounds folds the capped
history update over the payloads and keeps the overlay visible. -/
theorem run_roundsEvents (rounds : List (String × String)) :
    ∀ (w : Nat) (s : HUDState), s.visible = true →
      (run (roundsEvents w rounds) s).conversation =
        rounds.foldl (fun conv p => capAppend conv p.1 p.2) s.conversation ∧
      (run (roundsEvents w rounds) s).visible = true := by
  induction rounds with
  | nil => intro w s h; exact ⟨rfl, h⟩
  | cons p ps ih =>
      intro w s h
      obtain ⟨hc, hv⟩ := run_roundEvents w p s h
      rw [roundsEvents, run_append]
      obtain ⟨ihc, ihv⟩ := ih (w + 3) (run (roundEvents w p) s) hv
      refine ⟨?_, ihv⟩
      rw [ihc, hc]
      rfl

/-- C2: after any number N of consecutive successful inference rounds
started by `activate()` on the empty history, the history length is
min(2N, 40) and the retained turns are exactly the most recent ones of the
uncapped chronological history — the oldest turns (whole pairs, since the
drop count is even) are discarded first. -/
theorem C2_history_cap (rounds : List (String × String)) :
    (run (Event.evActivate :: roundsEvents 0 rounds)
        initState).conversation.length = min (2 * rounds.length) 40 ∧
    (run (Event.evActivate :: roundsEvents 0 rounds) initState).conversation =
      (fullHistory rounds).drop ((fullHistory rounds).length - 40) := by
  have hact : (step Event.evActivate initState).visible = true := rfl
  have h := run_roundsEvents rounds 0 (step Event.evActivate initState) hact
  have hconv : (run (Event.evActivate :: roundsEvents 0 rounds)
      initState).conversation = historyAfter rounds := by
    have : run (Event.evActivate :: roundsEvents 0 rounds) initState =
        run (roundsEvents 0 rounds) (step Event.evActivate initState) := rfl
    rw [this, h.1]
    rfl
  constructor
  · rw [hconv, historyAfter_eq_rtake, length_rtake, fullHistory_length,
      Nat.min_comm]
  · rw [hconv, historyAfter_eq_rtake]
    rfl

/-- Appending one user/assistant pair preserves the pairing shape. -/
theorem Paired.append_pair {l : List Turn} (h : Paired l) (u r : String) :
    Paired (l ++ [⟨"user", u⟩, ⟨"assistant", r⟩]) := by
  induction h with
  | nil => exact Paired.cons _ _ _ rfl rfl Paired.nil
  | cons a b t ha hb _ ih => exact Paired.cons a b _ ha hb ih

/-- A paired conversation has even length. -/
theorem Paired.even_length {l : List Turn} (h : Paired l) :
    Even l.length := by
  induction h with
  | nil => exact ⟨0, rfl⟩
  | cons u a t _ _ _ ih =>
      obtain ⟨k, hk⟩ := ih
      exact ⟨k + 1, by simp [List.length_cons, hk]; omega⟩

/-- Dropping one pair preserves the pairing shape. -/
theorem Paired.drop_two {l : List Turn} (h : Paired l) :
    Paired (l.drop 2) := by
  cases h with
  | nil => exact Paired.nil
  | cons u a t _ _ ht => exact ht

/-- Dropping an even number of turns preserves the pairing shape. -/
theorem Paired.drop_even {l : List Turn} (h : Paired l) (k : Nat) :
    Paired (l.drop (2 * k)) := by
  induction k generalizing l with
  | zero => simpa using h
  | succ n ih =>
      have h2 := ih h.drop_two
      rw [List.drop_drop] at h2
      have he : 2 + 2 * n = 2 * (n + 1) := by omega
      rwa [he] at h2

/-- Keeping the last 40 turns preserves the pairing shape: the drop count
is even because the length is. -/
theorem Paired.rtake_forty {l : List Turn} (h : Paired l) :
    Paired (l.rtake 40) := by
  have he : Even (l.length - 40) := by
    rcases le_or_lt 40 l.length with hle | hlt
    · exact (Nat.even_sub hle).mpr ⟨fun _ => ⟨20, rfl⟩, fun _ => h.even_length⟩
    · rw [Nat.sub_eq_zero_of_le (Nat.le_of_lt hlt)]
      exact ⟨0, rfl⟩
  obtain ⟨k, hk⟩ := he
  have hr : l.rtake 40 = l.drop (2 * k) := by
    rw [List.rtake]
    congr 1
    omega
  rw [hr]
  exact h.drop_even k

/-- The history update of `_on_llm_reply` preserves the pairing shape. -/
theorem Paired.capAppend {l : List Turn} (h : Paired l) (u r : String) :
    Paired (VoiceAssistant.capAppend l u r) := by
  rw [capAppend_eq_rtake]
  exact (h.append_pair u r).rtake_forty

/-- Every single event preserves the pairing shape of the conversation:
only `_on_llm_reply` touches it, and it appends a full pair under the
cap. -/
theorem step_preserves_paired (e : Event) (s : HUDState)
    (h : Paired s.conversation) : Paired (step e s).conversation := by
  cases e with
  | evActivate => exact h
  | evDeactivate => exact h
  | evToggle =>
      simp only [step, toggle]
      split
      · exact h
      · exact h
  | timerFired =>
      simp only [step, resumeListening]
      split
      · exact h
      · exact h
  | sig w g =>
      cases g with
      | listeningStarted => exact h
      | sttResult text => exact h
      | sttError msg => exact h
      | llmReply u r => exact h.capAppend u r
      | llmError msg => exact h
      | ttsDone => exact h
      | ttsError msg => exact h

/-- Any event sequence preserves the pairing shape. -/
theorem run_paired (es : List Event) :
    ∀ s : HUDState, Paired s.conversation → Paired (run es s).conversation := by
  induction es with
  | nil => intro s h; exact h
  | cons e es ih => intro s h; exact ih _ (step_preserves_paired e s h)

/-- In a paired conversation, the turn at every even index is a user turn
and the one after it an assistant turn. -/
theorem Paired.getD_roles {l : List Turn} (h : Paired l) :
    ∀ k : Nat, 2 * k + 1 < l.length →
      (l.getD (2 * k) ⟨"", ""⟩).role = "user" ∧
      (l.getD (2 * k + 1) ⟨"", ""⟩).role = "assistant" := by
  induction h with
  | nil => intro k hk; simp at hk
  | cons u a t hu ha _ ih =>
      intro k hk
      cases k with
      | zero => simpa [List.getD_cons_zero, List.getD_cons_succ] using ⟨hu, ha⟩
      | succ n =>
          have hlen : 2 * n + 1 < t.length := by
            simp only [List.length_cons] at hk
            omega
          have hih := ih n hlen
          have e1 : 2 * (n + 1) = 2 * n + 1 + 1 := by omega
          have e2 : 2 * (n + 1) + 1 = 2 * n + 1 + 1 + 1 := by omega
          constructor
          · rw [e1, List.getD_cons_succ, List.getD_cons_succ]
            exact hih.1
          · rw [e2, List.getD_cons_succ, List.getD_cons_succ]
            exact hih.2

/-- C3: in every state reachable by any sequence of orchestrator events
from the freshly constructed HUD, the conversation history has even
length, the turn at each index 2k has role user and the turn at index
2k+1 has role assistant. -/
theorem C3_pairing_invariant (es : List Event) :
    Even (run es initState).conversation.length ∧
    ∀ k : Nat, 2 * k + 1 < (run es initState).conversation.length →
      ((run es initState).conversation.getD (2 * k) ⟨"", ""⟩).role = "user" ∧
      ((run es initState).conversation.getD (2 * k + 1) ⟨"", ""⟩).role =
        "assistant" := by
  have h := run_paired es initState Paired.nil
  exact ⟨h.even_length, h.getD_roles⟩

/-- Witness for C3 on the clean run: its two-turn history satisfies the
pairing property at k = 0. -/
theorem C3_pairing_invariant_witness :
    Even (run evCleanRun initState).conversation.length ∧
    ((run evCleanRun initState).conversation.getD 0 ⟨"", ""⟩).role = "user" ∧
    ((run evCleanRun initState).conversation.getD 1 ⟨"", ""⟩).role =
      "assistant" :=
  ⟨(C3_pairing_invariant evCleanRun).1,
   ((C3_pairing_invariant evCleanRun).2 0 (by decide)).1,
   ((C3_pairing_invariant evCleanRun).2 0 (by decide)).2⟩

/-- C1: starting from the freshly constructed HUD in Idle, the valid run
consisting of `activate()`, Capture-success("hello"),
Inference-success("hi there") and Synthesis-success (with its deferred
resume) and nothing else visits exactly the session states
Idle, Listening, Thinking, Speaking, Listening, and leaves the
conversation history equal to the user turn "hello" followed by the
assistant turn "hi there". -/
theorem C1_clean_loop_trace :
    validRun evCleanRun = true ∧
    dedup (phaseTrace evCleanRun initState) =
      [SessionState.Idle, SessionState.Listening, SessionState.Thinking,
       SessionState.Speaking, SessionState.Listening] ∧
    (run evCleanRun initState).conversation =
      [⟨"user", "hello"⟩, ⟨"assistant", "hi there"⟩] := by
  refine ⟨?_, ?_, ?_⟩ <;> decide

/-- C4 fails on the code: in the valid run that activates, receives the
capture result "hello" (putting inference worker 1 in flight) and then
calls `deactivate()`, the history length at the moment of `deactivate()`
is 0, yet when the in-flight inference later completes successfully its
still-connected `finished` signal runs `_on_llm_reply`, which appends the
turn pair: the history length becomes 2 ≠ 0. -/
theorem C4_cancellation_cx :
    validRun (evDeactivateMidInference ++
      [Event.sig 1 (Sig.llmReply "hello" "hi")]) = true ∧
    (run evDeactivateMidInference initState).conversation.length = 0 ∧
    (step (Event.sig 1 (Sig.llmReply "hello" "hi"))
        (run evDeactivateMidInference initState)).conversation.length = 2 := by
  refine ⟨?_, ?_, ?_⟩ <;> decide

/-- C4 amended: `deactivate()` does not stop the in-flight inference
worker and does not disconnect its signals.  If the in-flight call later
completes with a failure the history is indeed unchanged, but if it
completes successfully `_on_llm_reply` still runs and appends the
(user, assistant) pair under the 40-turn cap, so the history length is not
preserved. -/
theorem C4_cancellation_amended (s : HUDState) (w : Nat) (u r m : String) :
    (step (Event.sig w (Sig.llmError m)) s).conversation = s.conversation ∧
    (step (Event.sig w (Sig.llmReply u r)) s).conversation =
      capAppend s.conversation u r := by
  constructor <;> rfl

/-- Witness for the amended C4 at a concrete state and payload. -/
theorem C4_cancellation_amended_witness :
    (step (Event.sig 1 (Sig.llmError "boom")) initState).conversation =
        initState.conversation ∧
    (step (Event.sig 1 (Sig.llmReply "hello" "hi")) initState).conversation =
        capAppend initState.conversation "hello" "hi" :=
  C4_cancellation_amended initState 1 "hello" "hi" "boom"

/-- C5 fails on the code: in the valid run G1 = activate, capture result
"hello" (inference worker 1 in flight), `deactivate()`, `activate()`
(session G2, capture worker 2), session G2 is Listening with empty
history; delivering the delayed G1 inference success then changes G2's
history from [] to the two stale turns and moves its session state from
Listening to Speaking — no generation tag suppresses it. -/
theorem C5_stale_cx :
    validRun (evTwoSessions ++
      [Event.sig 1 (Sig.llmReply "hello" "late reply")]) = true ∧
    (run evTwoSessions initState).phase = SessionState.Listening ∧
    (run evTwoSessions initState).conversation = [] ∧
    (step (Event.sig 1 (Sig.llmReply "hello" "late reply"))
        (run evTwoSessions initState)).conversation =
      [⟨"user", "hello"⟩, ⟨"assistant", "late reply"⟩] ∧
    (step (Event.sig 1 (Sig.llmReply "hello" "late reply"))
        (run evTwoSessions initState)).phase = SessionState.Speaking := by
  refine ⟨?_, ?_, ?_, ?_, ?_⟩ <;> decide

/-- C5 amended: the code has no session generations — the slots never
inspect which worker emitted a signal, so a delayed completion belonging
to a previous session is processed exactly like a current one; in
particular a stale inference success appends its turn pair to the current
history and starts synthesis. -/
theorem C5_stale_amended (g : Sig) (w w2 : Nat) (s : HUDState)
    (u r : String) :
    step (Event.sig w g) s = step (Event.sig w2 g) s ∧
    (step (Event.sig w (Sig.llmReply u r)) s).conversation =
      capAppend s.conversation u r ∧
    (step (Event.sig w (Sig.llmReply u r)) s).phase =
      SessionState.Speaking := by
  refine ⟨rfl, rfl, rfl⟩

/-- C6 fails on the code: `activate()` is not a no-op when the overlay is
already active.  In the valid run reaching the Speaking state with the
reply panel expanded, a second `activate()` collapses the panel (clearing
the displayed reply), moves the session state back to Listening and starts
a fourth worker — a second capture worker concurrent with the still-running
synthesis. -/
theorem C6_activate_cx :
    validRun (evToSpeaking ++ [Event.evActivate]) = true ∧
    (run evToSpeaking initState).visible = true ∧
    (run evToSpeaking initState).responseVisible = true ∧
    (run evToSpeaking initState).phase = SessionState.Speaking ∧
    activate (run evToSpeaking initState) ≠ run evToSpeaking initState ∧
    (activate (run evToSpeaking initState)).responseVisible = false ∧
    (activate (run evToSpeaking initState)).phase =
      SessionState.Listening := by
  refine ⟨?_, ?_, ?_, ?_, ?_, ?_, ?_⟩ <;> decide

/-- C6 amended: `activate()` while the overlay is already active raises no
error and leaves the conversation history unchanged, but it is not a
no-op: it collapses the response panel, restarts the listening pipeline
(session state Listening) and starts a fresh capture worker in addition to
whatever was in flight. -/
theorem C6_activate_amended (s : HUDState) (h : s.visible = true) :
    (activate s).conversation = s.conversation ∧
    (activate s).visible = true ∧
    (activate s).responseVisible = false ∧
    (activate s).phase = SessionState.Listening ∧
    (activate s).started = s.started ++ [WorkerInfo.stt] := by
  refine ⟨rfl, rfl, rfl, rfl, rfl⟩

/-- Witness for the amended C6 at the concrete active state reached by a
plain `activate()` from the initial state. -/
theorem C6_activate_amended_witness :
    (activate (run [Event.evActivate] initState)).conversation =
        (run [Event.evActivate] initState).conversation ∧
    (activate (run [Event.evActivate] initState)).visible = true ∧
    (activate (run [Event.evActivate] initState)).responseVisible = false ∧
    (activate (run [Event.evActivate] initState)).phase =
      SessionState.Listening ∧
    (activate (run [Event.evActivate] initState)).started =
      (run [Event.evActivate] initState).started ++ [WorkerInfo.stt] :=
  C6_activate_amended (run [Event.evActivate] initState) (by decide)

/-- C9 fails on the code: capture and inference failures do set an error
status, but a synthesis/playback failure does not.  In the valid run
reaching Speaking, delivering the TTS error signal leaves both the status
text (still "คำตอบ:") and the status colour (still the normal text colour,
not the error colour) unchanged. -/
theorem C9_error_status_cx :
    validRun (evToSpeaking ++
      [Event.sig 2 (Sig.ttsError "TTS Error: boom")]) = true ∧
    (step (Event.sig 2 (Sig.ttsError "TTS Error: boom"))
        (run evToSpeaking initState)).statusText =
      (run evToSpeaking initState).statusText ∧
    (step (Event.sig 2 (Sig.ttsError "TTS Error: boom"))
        (run evToSpeaking initState)).statusColor = TEXT_COLOR ∧
    TEXT_COLOR ≠ ERROR_COLOR := by
  refine ⟨?_, ?_, ?_, ?_⟩ <;> decide

/-- C9 amended: a capture or inference failure updates the status text
with the failure message in the error colour, which is distinct from the
subtle, accent and normal text tones; a synthesis/playback failure,
however, never touches the status text or colour — it is only logged
before the loop resumes. -/
theorem C9_error_status_amended (s : HUDState) (w : Nat) (m : String) :
    (step (Event.sig w (Sig.sttError m)) s).statusText = m ∧
    (step (Event.sig w (Sig.sttError m)) s).statusColor = ERROR_COLOR ∧
    (step (Event.sig w (Sig.llmError m)) s).statusText = m ∧
    (step (Event.sig w (Sig.llmError m)) s).statusColor = ERROR_COLOR ∧
    (step (Event.sig w (Sig.ttsError m)) s).statusText = s.statusText ∧
    (step (Event.sig w (Sig.ttsError m)) s).statusColor = s.statusColor ∧
    ERROR_COLOR ≠ SUBTLE_COLOR ∧
    ERROR_COLOR ≠ ACCENT_COLOR ∧
    ERROR_COLOR ≠ TEXT_COLOR := by
  refine ⟨rfl, rfl, rfl, rfl, rfl, rfl, ?_, ?_, ?_⟩ <;> decide


/-- Reading below the end of a heap is unaffected by allocating a new
cell. -/
theorem PyHeap.read_append_lt (cells : List (List Turn)) (v : List Turn)
    (r : Nat) (h : r < cells.length) :
    (PyHeap.mk (cells ++ [v])).read r = (PyHeap.mk cells).read r := by
  simp [PyHeap.read, List.getD_eq_getElem?_getD, List.getElem?_append_left h]

/-- Reading the freshly allocated cell yields its initial contents. -/
theorem PyHeap.read_append_self (cells : List (List Turn)) (v : List Turn) :
    (PyHeap.mk (cells ++ [v])).read cells.length = v := by
  simp [PyHeap.read, List.getD_eq_getElem?_getD, List.getElem?_concat_length]

/-- In-place append to one cell leaves every other cell unchanged. -/
theorem PyHeap.read_appendAt_ne (h : PyHeap) (i j : Nat) (t : Turn)
    (hne : i ≠ j) : (h.appendAt i t).read j = h.read j := by
  simp [PyHeap.appendAt, PyHeap.read, List.getD_eq_getElem?_getD,
    List.getElem?_set_ne hne]

/-- In-place append to an existing cell appends to its contents. -/
theorem PyHeap.read_appendAt_self (h : PyHeap) (i : Nat) (t : Turn)
    (hi : i < h.cells.length) :
    (h.appendAt i t).read i = h.read i ++ [t] := by
  simp [PyHeap.appendAt, PyHeap.read, List.getD_eq_getElem?_getD,
    List.getElem?_set_self hi]

/-- The heap effect of `LLMWorker.run` is the same on every completion
path: allocate the copy `messages = list(self.conversation)` and append
the user turn to that copy in place. -/
theorem LLMWorker.run_heap (w : LLMWorker) (h : PyHeap) (resp : HttpOutcome) :
    (w.run h resp).heap =
      PyHeap.appendAt
        (PyHeap.mk (h.cells ++ [h.read w.conversation])) h.cells.length
        ⟨"user", w.user_text⟩ := by
  cases resp <;> rfl

/-- The request payload of `LLMWorker.run` is the final contents of the
`messages` copy, on every completion path. -/
theorem LLMWorker.run_messages (w : LLMWorker) (h : PyHeap)
    (resp : HttpOutcome) :
    (w.run h resp).messages = (w.run h resp).heap.read h.cells.length := by
  cases resp <;> rfl

/-- Claim C7: invoking the inference stage on the caller's conversation
list never mutates it — `run` copies it with `list(self.conversation)`
and appends the new user turn only to the copy — and the request it posts
is the full history followed by the new user turn.  This holds on every
completion path, success or failure, including the falsy-empty-list
replacement in `__init__` (`conversation or []`). -/
theorem C7_infer_frame (h : PyHeap) (r : Nat) (text : String)
    (resp : HttpOutcome) (hr : r < h.cells.length) :
    (llmInvoke h text r resp).heap.read r = h.read r ∧
    (llmInvoke h text r resp).messages =
      h.read r ++ [⟨"user", text⟩] := by
  by_cases hemp : (h.read r).isEmpty
  · have hnil : h.read r = [] := by
      cases hv : h.read r with
      | nil => rfl
      | cons a t => rw [hv] at hemp; simp [List.isEmpty] at hemp
    have hinv : llmInvoke h text r resp =
        LLMWorker.run ⟨text, h.cells.length⟩ (PyHeap.mk (h.cells ++ [[]]))
          resp := by
      simp [llmInvoke, LLMWorker.init, hemp, PyHeap.alloc]
    have hread0 : (PyHeap.mk (h.cells ++ [[]])).read h.cells.length = [] :=
      PyHeap.read_append_self h.cells []
    rw [hinv, LLMWorker.run_messages, LLMWorker.run_heap]
    dsimp only
    rw [hread0]
    constructor
    · have e1 := PyHeap.read_appendAt_ne
        (PyHeap.mk (h.cells ++ [[]] ++ [[]])) ((h.cells ++ [[]]).length) r
        ⟨"user", text⟩
        (by simp only [List.length_append, List.length_singleton]; omega)
      rw [e1]
      have e2 := PyHeap.read_append_lt (h.cells ++ [[]]) [] r
        (by simp only [List.length_append, List.length_singleton]; omega)
      rw [e2]
      exact PyHeap.read_append_lt h.cells [] r hr
    · have e3 := PyHeap.read_appendAt_self
        (PyHeap.mk (h.cells ++ [[]] ++ [[]])) ((h.cells ++ [[]]).length)
        ⟨"user", text⟩
        (by dsimp only
            simp only [List.length_append, List.length_singleton]
            omega)
      rw [e3]
      have e4 := PyHeap.read_append_self (h.cells ++ [[]]) []
      rw [e4, hnil]
  · have hinv : llmInvoke h text r resp =
        LLMWorker.run ⟨text, r⟩ h resp := by
      simp [llmInvoke, LLMWorker.init, hemp]
    rw [hinv, LLMWorker.run_messages, LLMWorker.run_heap]
    dsimp only
    constructor
    · have e1 := PyHeap.read_appendAt_ne
        (PyHeap.mk (h.cells ++ [h.read r])) h.cells.length r ⟨"user", text⟩
        (by omega)
      rw [e1]
      exact PyHeap.read_append_lt h.cells (h.read r) r hr
    · have e3 := PyHeap.read_appendAt_self
        (PyHeap.mk (h.cells ++ [h.read r])) h.cells.length ⟨"user", text⟩
        (by dsimp only
            simp only [List.length_append, List.length_singleton]
            omega)
      rw [e3]
      have e4 := PyHeap.read_append_self h.cells (h.read r)
      rw [e4]


/-- Witness for C7 at a concrete one-cell heap holding one turn. -/
theorem C7_infer_frame_witness :
    (llmInvoke (PyHeap.mk [[⟨"user", "a"⟩]]) "hello" 0
        (HttpOutcome.ok "ok")).heap.read 0 =
      (PyHeap.mk [[⟨"user", "a"⟩]]).read 0 ∧
    (llmInvoke (PyHeap.mk [[⟨"user", "a"⟩]]) "hello" 0
        (HttpOutcome.ok "ok")).messages =
      (PyHeap.mk [[⟨"user", "a"⟩]]).read 0 ++ [⟨"user", "hello"⟩] :=
  C7_infer_frame (PyHeap.mk [[⟨"user", "a"⟩]]) 0 "hello"
    (HttpOutcome.ok "ok") (by decide)

/-- C8: for every invocation of the synthesis/playback stage on a fresh
temporary path, the temporary audio artifact is gone after the call on
every exit path — synthesis failure, playback failure and full success —
and the file system is exactly what it was before the call. -/
theorem C8_tts_cleanup (fs : FS) (p : String) (outcome : TTSOutcome)
    (hfresh : fs.pathExists p = false) :
    ((TTSWorker.run fs p outcome).1).pathExists p = false ∧
    (TTSWorker.run fs p outcome).1 = fs := by
  obtain ⟨l⟩ := fs
  have hmem : p ∉ l := by simpa [FS.pathExists] using hfresh
  cases outcome <;>
    simp [TTSWorker.run, synthesizeAndPlay, FS.create, FS.unlink,
      FS.pathExists, hmem] <;>
    exact fun a ha e => hmem (e ▸ ha)

/-- Witness for C8 at a concrete file system and path. -/
theorem C8_tts_cleanup_witness :
    ((TTSWorker.run (FS.mk ["keep.txt"]) "tmp.mp3"
        TTSOutcome.allOk).1).pathExists "tmp.mp3" = false ∧
    (TTSWorker.run (FS.mk ["keep.txt"]) "tmp.mp3" TTSOutcome.allOk).1 =
      FS.mk ["keep.txt"] :=
  C8_tts_cleanup (FS.mk ["keep.txt"]) "tmp.mp3" TTSOutcome.allOk (by decide)

/-- The capped history update always ends with the user turn followed by
the assistant turn it appended (the cap only drops from the front). -/
theorem capAppend_concat (conv : List Turn) (u r : String) :
    ∃ rest, capAppend conv u r =
      rest ++ [⟨"user", u⟩, ⟨"assistant", r⟩] := by
  simp only [capAppend]
  split
  · next hgt =>
      refine ⟨conv.drop
        ((conv ++ [Turn.mk "user" u, Turn.mk "assistant" r]).length - 40),
        ?_⟩
      have hk : (conv ++
          [Turn.mk "user" u, Turn.mk "assistant" r]).length - 40 ≤
          conv.length := by
        simp only [List.length_append, List.length_cons,
          List.length_nil] at hgt ⊢
        omega
      rw [List.drop_append_of_le_length hk]
  · exact ⟨conv, rfl⟩

/-- C10: a successful inference response makes the stage emit the parsed
reply with leading and trailing whitespace stripped, and delivering that
emission to the orchestrator stores the stripped reply verbatim as the
assistant turn of the appended pair and as the expanded panel text. -/
theorem C10_reply_stripped (w : LLMWorker) (hp : PyHeap) (content : String)
    (s : HUDState) (wid : Nat) :
    (w.run hp (HttpOutcome.ok content)).emit =
      LLMEmit.finished (pyStrip content) ∧
    (step (Event.sig wid (Sig.llmReply w.user_text (pyStrip content)))
        s).responseText = pyStrip content ∧
    ∃ rest,
      (step (Event.sig wid (Sig.llmReply w.user_text (pyStrip content)))
          s).conversation =
        rest ++ [⟨"user", w.user_text⟩, ⟨"assistant", pyStrip content⟩] :=
  ⟨rfl, rfl, capAppend_concat s.conversation w.user_text (pyStrip content)⟩

end VoiceAssistant
